import Mathlib

/-!
Verification of the PintarAI study-assistant core (prompt orchestration,
resilient parsing, quiz scoring) against its natural-language specification.

The embedding follows the current revision of the source: the two-step
note-generation service (`generateNoteSummary` / `regenerateQuiz`), the
note-detail page's `calculateScore`, and the `QuizQuestion` data model with
an optional `type` tag (`mcq` / `essay`).  JavaScript strings are modelled
as Lean `String` (lists of characters), JavaScript numbers as exact
rationals, the lenient JSON5 parser as an executable fueled
recursive-descent parser covering objects, arrays, double- and
single-quoted strings with escapes, numbers, keywords, comments, and
trailing commas, and thrown-then-caught exceptions as `Option` failure.
-/

namespace PintarAI

/-! ### Characters and small string utilities -/

/-- The double-quote character. -/
def chQuote : Char := Char.ofNat 34

/-- The single-quote character. -/
def chSquote : Char := Char.ofNat 39

/-- The backslash character. -/
def chBslash : Char := Char.ofNat 92

/-- The backtick character. -/
def chBtick : Char := Char.ofNat 96

/-- The opening curly brace character. -/
def chLbrace : Char := Char.ofNat 123

/-- The closing curly brace character. -/
def chRbrace : Char := Char.ofNat 125

/-- Whitespace in the JavaScript sense (the characters matched by `\s` and
skipped by `String.prototype.trim` that occur in this code base). -/
def isWsCh (c : Char) : Bool :=
  c = ' ' || c = Char.ofNat 9 || c = Char.ofNat 10 || c = Char.ofNat 13 ||
  c = Char.ofNat 11 || c = Char.ofNat 12

/-- `startsL pat s` : does `s` begin with the pattern `pat`? -/
def startsL : List Char → List Char → Bool
  | [], _ => true
  | _ :: _, [] => false
  | p :: ps, c :: cs => p = c && startsL ps cs

/-- Occurrence of `needle` anywhere in a character list. -/
def containsFrom (needle : List Char) : List Char → Bool
  | [] => startsL needle []
  | c :: cs => startsL needle (c :: cs) || containsFrom needle cs

/-- `String.prototype.includes`. -/
def strContains (hay sub : String) : Bool :=
  containsFrom sub.data hay.data

/-- Drop leading JS whitespace. -/
def dropLeadingWs (l : List Char) : List Char := l.dropWhile isWsCh

/-- Drop trailing JS whitespace. -/
def dropTrailingWs (l : List Char) : List Char :=
  ((l.reverse.dropWhile isWsCh).reverse)

/-- `String.prototype.trim` on character lists. -/
def trimL (l : List Char) : List Char := dropTrailingWs (dropLeadingWs l)

/-- `String.prototype.trim`. -/
def jsTrim (s : String) : String := String.mk (trimL s.data)

/-- Case-insensitive prefix test (the `/i` regex flag, ASCII folding). -/
def ciStartsL : List Char → List Char → Bool
  | [], _ => true
  | _ :: _, [] => false
  | p :: ps, c :: cs => p.toLower = c.toLower && ciStartsL ps cs

/-! ### Quiz data model and scoring

Embedded from the current `types.ts` (`QuizQuestion` with an optional
`type` tag and optional `options`) and the note-detail page's
`calculateScore`:

```
const calculateScore = () => {
    if (!note.quiz) return 0;
    let correct = 0;
    let totalMCQ = 0;
    note.quiz.forEach((q, idx) => {
        if (q.type === 'mcq' || (!q.type && q.options)) { // Backward compatibility
            totalMCQ++;
            if (quizAnswers[idx] === q.answer) correct++;
        }
    });
    if (totalMCQ === 0) return 0;
    return Math.round((correct / totalMCQ) * 100);
};
```

JS number arithmetic is modelled exactly over `ℚ`.
-/

/-- The question kind tag (`'mcq' | 'essay'`). -/
inductive QKind where
  | mcq : QKind
  | essay : QKind
deriving DecidableEq, Repr

/-- `QuizQuestion` from `types.ts`: `type?`, `question`, `options?`,
`answer`, `explanation`. -/
structure QuizQuestion where
  qtype : Option QKind
  question : String
  options : Option (List String)
  answer : String
  explanation : String
deriving DecidableEq, Repr

/-- The guard `q.type === 'mcq' || (!q.type && q.options)`: note that in JS
an empty array is truthy, so a legacy untyped question with `options`
present (even `[]`) counts as multiple choice. -/
def isMCQCounted (q : QuizQuestion) : Bool :=
  decide (q.qtype = some QKind.mcq) || (q.qtype.isNone && q.options.isSome)

/-- `Math.round`: round half toward positive infinity. -/
def jsRound (x : ℚ) : Int := Int.floor (x + 1/2)

/-- The `forEach` accumulation loop of `calculateScore`: running index,
`correct` and `totalMCQ` accumulators. -/
def scoreLoop (ans : Nat → Option String) : Nat → Nat → Nat → List QuizQuestion → Nat × Nat
  | _, c, t, [] => (c, t)
  | i, c, t, q :: qs =>
      if isMCQCounted q then
        scoreLoop ans (i + 1) (if ans i = some q.answer then c + 1 else c) (t + 1) qs
      else
        scoreLoop ans (i + 1) c t qs

/-- `calculateScore` (note-detail page): `note.quiz` may be absent; answers
are looked up by question index; the percentage is
`Math.round((correct / totalMCQ) * 100)` guarded by `totalMCQ === 0`. -/
def calculateScore (quiz : Option (List QuizQuestion)) (ans : Nat → Option String) : Int :=
  match quiz with
  | none => 0
  | some qs =>
      let ct := scoreLoop ans 0 0 0 qs
      if ct.2 = 0 then 0 else jsRound (((ct.1 : ℚ) / (ct.2 : ℚ)) * 100)

/-! Specification-side scoring (from the spec's words, for claim C1):
`percentage = round(100 * correctCount / multipleChoiceCount)`, counting
only multiple-choice entries, `0` when there are none. -/

/-- Spec-side count of multiple-choice entries. -/
def countMCQ (qs : List QuizQuestion) : Nat :=
  (qs.filter fun q => decide (q.qtype = some QKind.mcq)).length

/-- Spec-side count, from index `i`, of multiple-choice questions whose
submitted answer equals the answer key exactly. -/
def countCorrect (ans : Nat → Option String) : Nat → List QuizQuestion → Nat
  | _, [] => 0
  | i, q :: qs =>
      (if q.qtype = some QKind.mcq ∧ ans i = some q.answer then 1 else 0) +
        countCorrect ans (i + 1) qs

/-- Spec-side score: `round(100 * correctCount / multipleChoiceCount)`,
and `0` when `multipleChoiceCount = 0`. -/
def specScore (qs : List QuizQuestion) (ans : Nat → Option String) : Int :=
  if countMCQ qs = 0 then 0
  else jsRound ((100 * (countCorrect ans 0 qs : ℚ)) / (countMCQ qs : ℚ))

/-- The sequence of multiple-choice entries (in the code's sense) paired
with their submitted answers, starting at index `i`. -/
def mcqPairsFrom (ans : Nat → Option String) : Nat → List QuizQuestion → List (QuizQuestion × Option String)
  | _, [] => []
  | i, q :: qs =>
      (if isMCQCounted q then [(q, ans i)] else []) ++ mcqPairsFrom ans (i + 1) qs

/-- The sequence of multiple-choice entries with their submitted answers. -/
def mcqPairs (qs : List QuizQuestion) (ans : Nat → Option String) : List (QuizQuestion × Option String) :=
  mcqPairsFrom ans 0 qs

/-- Number of matching pairs in a (question, submitted answer) list. -/
def pairMatches (l : List (QuizQuestion × Option String)) : Nat :=
  (l.filter fun p => decide (p.2 = some p.1.answer)).length

/-- Score computed from a (question, submitted answer) pair list alone. -/
def pairScore (l : List (QuizQuestion × Option String)) : Int :=
  if l.length = 0 then 0
  else jsRound (((pairMatches l : ℚ) / (l.length : ℚ)) * 100)

/-- Insert an element at position `k` (clamped to the end), as the list
obtained by adding one question to a quiz. -/
def insertAt : Nat → QuizQuestion → List QuizQuestion → List QuizQuestion
  | 0, a, l => a :: l
  | _ + 1, a, [] => [a]
  | k + 1, a, x :: l => x :: insertAt k a l

/-- Re-indexing of an answers map after inserting an (unanswered) question
at position `k`: earlier indices unchanged, the new position unanswered,
later indices shifted by one. -/
def shiftAns (k : Nat) (ans : Nat → Option String) : Nat → Option String :=
  fun i => if i < k then ans i else if i = k then none else ans (i - 1)

/-! ### Title / body extraction (`generateNoteSummary`, content phase)

```
const titleMatch = rawText.match(/^JUDUL:\s*(.*)/i);
const title = titleMatch ? titleMatch[1].trim() : "Ringkasan Materi";
const content = rawText.replace(/^JUDUL:.*\n?/i, '').trim();
```

The `^` anchor (no `m` flag) only matches at the very start; `\s*` also
eats newlines while `(.*)` and `.*` stop at the first newline. -/

/-- The marker pattern `JUDUL:`. -/
def markerJudul : List Char := ['J', 'U', 'D', 'U', 'L', ':']

/-- Whether the raw text starts with the (case-insensitive) title marker,
i.e. whether either regex matches. -/
def hasJudulMarker (raw : String) : Bool := ciStartsL markerJudul raw.data

/-- Everything after the first line (the `\n` consumed by `\n?`), or empty
when there is no newline. -/
def afterFirstLine (l : List Char) : List Char :=
  match l.dropWhile (fun c => decide (c ≠ Char.ofNat 10)) with
  | [] => []
  | _ :: rest => rest

/-- `parseNoteContent rawText -> (title, body)` as in the source above. -/
def parseNoteContent (raw : String) : String × String :=
  if hasJudulMarker raw then
    let afterMark := raw.data.drop 6
    let title := trimL ((afterMark.dropWhile isWsCh).takeWhile (fun c => decide (c ≠ Char.ofNat 10)))
    let body := trimL (afterFirstLine raw.data)
    (String.mk title, String.mk body)
  else
    ("Ringkasan Materi", String.mk (trimL raw.data))

/-! ### Quiz prompt construction (`regenerateQuiz`)

```
const safeContent = content.length > 30000 ? content.slice(0, 30000) + "..." : content;
const prompt = `...MATERI:\n  ${safeContent}\n  ...`;
```
String indices model UTF-16 code units by characters. -/

/-- The length-capped excerpt embedded in the quiz prompt. -/
def safeContent (content : String) : String :=
  if content.length > 30000 then String.mk (content.data.take 30000) ++ "..." else content

/-- Quiz prompt text before the interpolated content (verbatim from the
template literal). -/
def quizPromptPre : String :=
  "\n  Berdasarkan materi berikut, buatlah Kuis Evaluasi yang komprehensif.\n  \n  MATERI:\n  "

/-- Quiz prompt text after the interpolated content (verbatim from the
template literal). -/
def quizPromptPost : String :=
  "\n  \n  TUGAS:\n  Buat file JSON yang berisi 2 array: \x27mcq_questions\x27 dan \x27essay_questions\x27.\n  \n  KOMPOSISI SOAL (WAJIB DIPATUHI):\n  1. **10 Soal Pilihan Ganda (MCQ)**: \n     - Cakupan luas dari materi.\n  2. **10 Soal Esai (Total)** dengan rincian:\n     - **5 Soal Esai Teori**: Pertanyaan konseptual/analisis.\n     - **5 Soal \"Melengkapi Program\" (Code Completion)**:\n       - **KHUSUS MATERI IT/CODING**: Berikan snippet kode dalam soal (gunakan format markdown \x60\x60\x60) yang rumpang/hilang sebagian.\n       - **PENTING**: Gunakan bahasa **C** atau **COBOL** untuk soal melengkapi program (sesuai materi).\n       - Minta siswa melengkapi baris tersebut atau menebak outputnya.\n  \n  IMPORTANT:\n  - Output HARUS Valid JSON.\n  - Escape backslash dan karakter spesial dalam string JSON.\n  "

/-- The quiz-authoring prompt built by `regenerateQuiz`. -/
def regenQuizPrompt (content : String) : String :=
  quizPromptPre ++ safeContent content ++ quizPromptPost

/-! ### JSON values and the lenient (JSON5) parser

The service parses model output with `JSON5.parse`.  The embedding is an
executable fueled recursive-descent parser over character lists covering
the lenient features the spec names (comments, trailing commas) plus
single-quoted strings, unquoted identifier keys, escapes, and signed /
fractional / exponent numbers.  JSON5 extras irrelevant to every claim
(hexadecimal literals, `Infinity` / `NaN`) are omitted.  `JSON5.parse`
ignores trailing whitespace; this is modelled by trimming trailing
whitespace up front.  Thrown parse errors are `none`. -/

/-- JSON values.  Objects keep field order; duplicate keys are resolved at
parse time exactly as JS object construction does (later value, first
position). -/
inductive Json where
  | null : Json
  | bool (b : Bool) : Json
  | num (q : ℚ) : Json
  | str (s : String) : Json
  | arr (elems : List Json) : Json
  | obj (fields : List (String × Json)) : Json

/-- Whitespace / comment skipper.  Modes: `0` normal, `1` line comment,
`2` block comment.  An unterminated block comment is a parse error
(`none`). -/
def skipWsAux : Nat → List Char → Option (List Char)
  | mode, [] => if mode ≤ 1 then some [] else none
  | 0, '/' :: '/' :: r => skipWsAux 1 r
  | 0, '/' :: '*' :: r => skipWsAux 2 r
  | 0, c :: cs => if isWsCh c then skipWsAux 0 cs else some (c :: cs)
  | 1, c :: cs => if c = Char.ofNat 10 then skipWsAux 0 cs else skipWsAux 1 cs
  | 2, '*' :: '/' :: r => skipWsAux 0 r
  | 2, _ :: cs => skipWsAux 2 cs
  | _, _ :: _ => none

/-- Value of a hexadecimal digit. -/
def hexVal (c : Char) : Option Nat :=
  if c.isDigit then some (c.toNat - 48)
  else if 'a' ≤ c ∧ c ≤ 'f' then some (c.toNat - 87)
  else if 'A' ≤ c ∧ c ≤ 'F' then some (c.toNat - 55)
  else none

/-- Single-character escapes (`\n`, `\t`, ...); any other escaped
character stands for itself, as in JSON5. -/
def escChar (e : Char) : Char :=
  if e = 'n' then Char.ofNat 10
  else if e = 't' then Char.ofNat 9
  else if e = 'r' then Char.ofNat 13
  else if e = 'b' then Char.ofNat 8
  else if e = 'f' then Char.ofNat 12
  else if e = 'v' then Char.ofNat 11
  else if e = '0' then Char.ofNat 0
  else e

/-- Parse the remainder of a string literal opened with quote `q`,
returning the decoded characters and the rest of the input.  A raw
newline inside the literal or an unterminated literal is an error;
a backslash-newline pair is a line continuation. -/
def pStrChars (q : Char) : List Char → Option (List Char × List Char)
  | [] => none
  | c :: cs =>
    if c = q then some ([], cs)
    else if c = Char.ofNat 10 ∨ c = Char.ofNat 13 then none
    else if c = chBslash then
      match cs with
      | [] => none
      | e :: cs2 =>
        if e = Char.ofNat 10 then pStrChars q cs2
        else if e = 'u' then
          match cs2 with
          | h1 :: h2 :: h3 :: h4 :: cs3 =>
            match hexVal h1, hexVal h2, hexVal h3, hexVal h4 with
            | some a, some b, some c4, some d =>
                (fun p => (Char.ofNat (((a * 16 + b) * 16 + c4) * 16 + d) :: p.1, p.2)) <$>
                  pStrChars q cs3
            | _, _, _, _ => none
          | _ => none
        else if e = 'x' then
          match cs2 with
          | h1 :: h2 :: cs3 =>
            match hexVal h1, hexVal h2 with
            | some a, some b =>
                (fun p => (Char.ofNat (a * 16 + b) :: p.1, p.2)) <$> pStrChars q cs3
            | _, _ => none
          | _ => none
        else (fun p => (escChar e :: p.1, p.2)) <$> pStrChars q cs2
    else (fun p => (c :: p.1, p.2)) <$> pStrChars q cs

/-- Decimal digits to a natural number. -/
def digitsToNat (l : List Char) : Nat :=
  l.foldl (fun acc c => acc * 10 + (c.toNat - 48)) 0

/-- Parse a number literal (optional sign, integer part, fraction,
exponent); at least one digit must be present in the mantissa. -/
def pNumberLit (l : List Char) : Option (Json × List Char) :=
  let sl : ℚ × List Char :=
    match l with
    | c :: rest => if c = '-' then (-1, rest) else if c = '+' then (1, rest) else (1, l)
    | [] => (1, l)
  let intPart := sl.2.takeWhile Char.isDigit
  let l2 := sl.2.drop intPart.length
  let fl : List Char × List Char :=
    match l2 with
    | c :: rest =>
        if c = '.' then (rest.takeWhile Char.isDigit, rest.drop (rest.takeWhile Char.isDigit).length)
        else ([], l2)
    | [] => ([], l2)
  if intPart.isEmpty && fl.1.isEmpty then none
  else
    let base : ℚ := sl.1 * (digitsToNat (intPart ++ fl.1) : ℚ) / ((10 : ℚ) ^ fl.1.length)
    match fl.2 with
    | c :: rest =>
      if c = 'e' ∨ c = 'E' then
        let er : Bool × List Char :=
          match rest with
          | d :: rr => if d = '-' then (true, rr) else if d = '+' then (false, rr) else (false, rest)
          | [] => (false, rest)
        let eds := er.2.takeWhile Char.isDigit
        if eds.isEmpty then none
        else
          let e := digitsToNat eds
          some (Json.num (if er.1 then base / (10 : ℚ) ^ e else base * (10 : ℚ) ^ e),
                er.2.drop eds.length)
      else some (Json.num base, fl.2)
    | [] => some (Json.num base, [])

/-- Start character of an unquoted identifier key. -/
def isIdStart (c : Char) : Bool := c.isAlpha || c = '_' || c = '$'

/-- Continuation character of an unquoted identifier key. -/
def isIdChar (c : Char) : Bool := c.isAlphanum || c = '_' || c = '$'

/-- JS object-construction upsert: a repeated key keeps its original
position and takes the later value; a new key is appended. -/
def insertKey : List (String × Json) → String → Json → List (String × Json)
  | [], k, v => [(k, v)]
  | (k0, v0) :: rest, k, v =>
      if k0 = k then (k0, v) :: rest else (k0, v0) :: insertKey rest k v

mutual

/-- Parse one JSON value at the head of the input (leading whitespace
already skipped). -/
def pValue : Nat → List Char → Option (Json × List Char)
  | 0, _ => none
  | _ + 1, [] => none
  | fuel + 1, c :: cs =>
    if c = chLbrace then pMembers fuel [] cs
    else if c = '[' then pElems fuel [] cs
    else if c = chQuote ∨ c = chSquote then
      (fun p => (Json.str (String.mk p.1), p.2)) <$> pStrChars c cs
    else if startsL ['t', 'r', 'u', 'e'] (c :: cs) then some (Json.bool true, (c :: cs).drop 4)
    else if startsL ['f', 'a', 'l', 's', 'e'] (c :: cs) then some (Json.bool false, (c :: cs).drop 5)
    else if startsL ['n', 'u', 'l', 'l'] (c :: cs) then some (Json.null, (c :: cs).drop 4)
    else if c.isDigit ∨ c = '-' ∨ c = '+' ∨ c = '.' then pNumberLit (c :: cs)
    else none

/-- Parse object members after the opening brace (or after a comma),
accumulating fields; allows trailing commas and identifier keys. -/
def pMembers : Nat → List (String × Json) → List Char → Option (Json × List Char)
  | 0, _, _ => none
  | fuel + 1, acc, s =>
    match skipWsAux 0 s with
    | none => none
    | some [] => none
    | some (c :: cs) =>
      if c = chRbrace then some (Json.obj acc, cs)
      else
        match (if c = chQuote ∨ c = chSquote then
                 (fun p => (String.mk p.1, p.2)) <$> pStrChars c cs
               else if isIdStart c then
                 some (String.mk ((c :: cs).takeWhile isIdChar),
                       (c :: cs).drop ((c :: cs).takeWhile isIdChar).length)
               else none) with
        | none => none
        | some (key, s2) =>
          match skipWsAux 0 s2 with
          | none => none
          | some (':' :: s4) =>
            match skipWsAux 0 s4 with
            | none => none
            | some s5 =>
              match pValue fuel s5 with
              | none => none
              | some (v, s6) =>
                match skipWsAux 0 s6 with
                | none => none
                | some (',' :: s8) => pMembers fuel (insertKey acc key v) s8
                | some (d :: s8) =>
                    if d = chRbrace then some (Json.obj (insertKey acc key v), s8) else none
                | some [] => none
          | some _ => none

/-- Parse array elements after the opening bracket (or after a comma),
allowing trailing commas. -/
def pElems : Nat → List Json → List Char → Option (Json × List Char)
  | 0, _, _ => none
  | fuel + 1, acc, s =>
    match skipWsAux 0 s with
    | none => none
    | some [] => none
    | some (c :: cs) =>
      if c = ']' then some (Json.arr acc, cs)
      else
        match pValue fuel (c :: cs) with
        | none => none
        | some (v, s2) =>
          match skipWsAux 0 s2 with
          | none => none
          | some (',' :: s4) => pElems fuel (acc ++ [v]) s4
          | some (']' :: s4) => some (Json.arr (acc ++ [v]), s4)
          | some _ => none

end

/-- Parse a whole document from a character list: skip leading
whitespace / comments, parse one value, and require only whitespace /
comments afterwards. -/
def jsonDoc (cs : List Char) : Option Json :=
  (skipWsAux 0 cs).bind fun cs1 =>
    (pValue (2 * cs1.length + 8) cs1).bind fun vr =>
      match skipWsAux 0 vr.2 with
      | some [] => some vr.1
      | _ => none

/-- `JSON5.parse` model: `JSON5.parse` ignores trailing whitespace, which
is modelled by trimming it up front; `none` is a thrown
`SyntaxError`. -/
def json5Parse (s : String) : Option Json :=
  jsonDoc (dropTrailingWs s.data)

/-! ### Fence stripping and the quiz payload pipeline (`regenerateQuiz`)

```
const cleanText = response.text.replace(/```json\n?|```/g, '');
```

The regex replace is global: at each position the alternative
<triple-backtick>`json` with an optional newline is preferred, otherwise a
bare triple backtick; matches are deleted everywhere in the string, not
only at the armour boundary. -/

/-- Left-to-right scanner implementing the global replace, one input
character per step.  States: `0` base; `1` / `2` one / two pending
backticks; `3` a triple fence just matched (deleted), now trying the
optional `json` language tag; `4` / `5` / `6` saw `j` / `js` / `jso` of
the tag; `7` the whole `json` tag matched, an immediately following
newline is consumed too.  A failed tag attempt emits the tag characters
already seen (none of which can start a fence) and rescans the current
character. -/
def sfAux : Nat → List Char → List Char
  | 0, [] => []
  | 1, [] => [chBtick]
  | 2, [] => [chBtick, chBtick]
  | 3, [] => []
  | 4, [] => ['j']
  | 5, [] => ['j', 's']
  | 6, [] => ['j', 's', 'o']
  | _, [] => []
  | 0, c :: cs => if c = chBtick then sfAux 1 cs else c :: sfAux 0 cs
  | 1, c :: cs => if c = chBtick then sfAux 2 cs else chBtick :: c :: sfAux 0 cs
  | 2, c :: cs => if c = chBtick then sfAux 3 cs else chBtick :: chBtick :: c :: sfAux 0 cs
  | 3, c :: cs =>
      if c = 'j' then sfAux 4 cs
      else if c = chBtick then sfAux 1 cs else c :: sfAux 0 cs
  | 4, c :: cs =>
      if c = 's' then sfAux 5 cs
      else if c = chBtick then 'j' :: sfAux 1 cs else 'j' :: c :: sfAux 0 cs
  | 5, c :: cs =>
      if c = 'o' then sfAux 6 cs
      else if c = chBtick then 'j' :: 's' :: sfAux 1 cs else 'j' :: 's' :: c :: sfAux 0 cs
  | 6, c :: cs =>
      if c = 'n' then sfAux 7 cs
      else if c = chBtick then 'j' :: 's' :: 'o' :: sfAux 1 cs
      else 'j' :: 's' :: 'o' :: c :: sfAux 0 cs
  | _, c :: cs =>
      if c = Char.ofNat 10 then sfAux 0 cs
      else if c = chBtick then sfAux 1 cs else c :: sfAux 0 cs

/-- Global deletion of every occurrence of the fence markers, exactly as
the `replace(/```json\n?|```/g, '')` call (the tagged alternative is
preferred at each position, matches never overlap, and scanning resumes
after each match). -/
def stripFencesL (s : List Char) : List Char := sfAux 0 s

/-- Fence stripping on strings. -/
def stripFences (s : String) : String := String.mk (stripFencesL s.data)

/-- Whether a triple backtick occurs anywhere in the text. -/
def hasTriple : List Char → Bool
  | c1 :: c2 :: c3 :: rest =>
      (c1 = chBtick && c2 = chBtick && c3 = chBtick) || hasTriple (c2 :: c3 :: rest)
  | _ => false

/-- Armouring of a payload in a fenced block with the `json` language
tag. -/
def fenceWrapJson (J : String) : String :=
  "\x60\x60\x60json\n" ++ J ++ "\n\x60\x60\x60"

/-- Armouring of a payload in a fenced block without a language tag. -/
def fenceWrapPlain (J : String) : String :=
  "\x60\x60\x60\n" ++ J ++ "\n\x60\x60\x60"

/-- Valid quiz JSON whose question text itself contains a triple
backtick (as the code-completion questions requested by the prompt
do). -/
def cexFencedBody : String :=
  "\x7b\"mcq_questions\":[\x7b\"question\":\"\x60\x60\x60c kode\",\"options\":[\"a\"],\"answer\":\"a\",\"explanation\":\"e\"\x7d]\x7d"

/-- Valid quiz JSON free of backticks. -/
def sampleQuizJson : String :=
  "\x7b\"mcq_questions\":[\x7b\"question\":\"q1\",\"options\":[\"a\"],\"answer\":\"a\",\"explanation\":\"e\"\x7d],\"essay_questions\":[]\x7d"

/-- JS truthiness of a JSON value. -/
def jsTruthy : Json → Bool
  | Json.null => false
  | Json.bool b => b
  | Json.num q => decide (q ≠ 0)
  | Json.str s => decide (s ≠ "")
  | Json.arr _ => true
  | Json.obj _ => true

/-- Key lookup in parsed object fields (keys are unique by
construction). -/
def lookupKey : List (String × Json) → String → Option Json
  | [], _ => none
  | (k0, v) :: rest, k => if k0 = k then some v else lookupKey rest k

/-- JS property access yielding `undefined` (`none`) on non-objects and
absent keys.  Access on `null` throws and is handled at the use site. -/
def getProp : Json → String → Option Json
  | Json.obj fields, k => lookupKey fields k
  | _, _ => none

/-- Own enumerable properties copied by object spread `{...q}`:
objects copy their fields, arrays and strings spread to indexed
properties, primitives contribute nothing. -/
def jsSpreadFields : Json → List (String × Json)
  | Json.obj fs => fs
  | Json.arr xs => xs.enum.map (fun p => (toString p.1, p.2))
  | Json.str s => s.data.enum.map (fun p => (toString p.1, Json.str (String.mk [p.2])))
  | _ => []

/-- `{...q, type: 'mcq'}`. -/
def tagMcq (q : Json) : Json :=
  Json.obj (insertKey (jsSpreadFields q) "type" (Json.str "mcq"))

/-- `{...q, type: 'essay', options: []}`. -/
def tagEssay (q : Json) : Json :=
  Json.obj (insertKey (insertKey (jsSpreadFields q) "type" (Json.str "essay")) "options" (Json.arr []))

/-- `(parsed.key || []).map`-style extraction: an absent or falsy field
defaults to the empty array, an array maps through, and a truthy
non-array throws (`none`, the `.map` TypeError). -/
def fieldArrOrEmpty (j : Json) (k : String) : Option (List Json) :=
  match getProp j k with
  | none => some []
  | some v =>
      if jsTruthy v then
        match v with
        | Json.arr xs => some xs
        | _ => none
      else some []

/-- The mapping of a parsed payload into the quiz list
(`[...mcq.map(tag mcq), ...essay.map(tag essay, options := [])]`);
`none` models a thrown TypeError (property access on `null`, or `.map` on
a truthy non-array), which the surrounding `try` treats like a parse
failure. -/
def toQuizOpt (j : Json) : Option (List Json) :=
  match j with
  | Json.null => none
  | _ =>
    match fieldArrOrEmpty j "mcq_questions", fieldArrOrEmpty j "essay_questions" with
    | some ms, some es => some (ms.map tagMcq ++ es.map tagEssay)
    | _, _ => none

/-- The quiz-payload parsing of `regenerateQuiz`: lenient parse of the
raw text, on failure lenient parse of the fence-stripped text, on failure
the empty quiz; each stage includes the array-to-quiz mapping inside its
`try`. -/
def parseQuizPayload (raw : String) : List Json :=
  match (json5Parse raw).bind toQuizOpt with
  | some quiz => quiz
  | none =>
    match (json5Parse (stripFences raw)).bind toQuizOpt with
    | some quiz => quiz
    | none => []

/-- Question text of the first quiz entry (observer used to compare
question sets). -/
def qTextOfFirst (l : List Json) : Option String :=
  match l with
  | [] => none
  | j :: _ =>
    match getProp j "question" with
    | some (Json.str s) => some s
    | _ => none

/-! Specification-side payload mapping (from the claim's words, for
C10): all multiple-choice entries first in source order tagged `mcq`,
then all essay entries in source order tagged `essay` with `options`
defaulted to the empty sequence; a missing array contributes nothing. -/

/-- Spec-side extraction of a named array field (anything other than a
present array, including a missing field, contributes the empty
sequence). -/
def specArrayOf (j : Json) (k : String) : List Json :=
  match getProp j k with
  | some (Json.arr xs) => xs
  | _ => []

/-- Spec-side extraction of the `mcq_questions` array. -/
def specMcqArray (j : Json) : List Json := specArrayOf j "mcq_questions"

/-- Spec-side extraction of the `essay_questions` array. -/
def specEssayArray (j : Json) : List Json := specArrayOf j "essay_questions"

/-- Spec-side quiz sequence: tagged multiple-choice entries, then tagged
essay entries. -/
def specQuizOf (j : Json) : List Json :=
  (specMcqArray j).map tagMcq ++ (specEssayArray j).map tagEssay

/-! ### The note-generation orchestrator (`generateNoteSummary`)

The two asynchronous model calls are the only nondeterminism; they are
supplied by an environment.  `ApiResult.err` is a thrown transport /
auth error, `ok none` a response with no text field. -/

/-- Outcome of one model call. -/
inductive ApiResult (α : Type) where
  | ok (value : α) : ApiResult α
  | err : ApiResult α

/-- Environment of one orchestrator run: resolved API key (`none` when no
key resolves), the content-phase response, the quiz-phase response, and
`new Date().toLocaleDateString()`. -/
structure GenEnv where
  apiKey : Option String
  contentResp : ApiResult (Option String)
  quizResp : ApiResult (Option String)
  today : String

/-- Result shape `{title, content, quiz}`. -/
structure NoteResult where
  title : String
  content : String
  quiz : List Json

/-- Fixed title of the configuration-error result. -/
def configTitle : String := "Error Konfigurasi"

/-- Fixed content of the configuration-error result. -/
def configMsg : String := "API Key belum di-setting. Mohon masukkan API Key di menu Pengaturan."

/-- `regenerateQuiz`: no key means feature disabled (empty quiz); a
thrown call or missing / empty response text yields the empty quiz;
otherwise the payload pipeline runs on the response text.  The request
itself carries `regenQuizPrompt content`. -/
def regenerateQuiz (env : GenEnv) (content : String) : List Json :=
  match env.apiKey with
  | none => []
  | some _ =>
    let _prompt := regenQuizPrompt content
    match env.quizResp with
    | ApiResult.err => []
    | ApiResult.ok none => []
    | ApiResult.ok (some t) => if t = "" then [] else parseQuizPayload t

/-- The catch-branch degraded result: date-stamped title, explanation
body (inlining the first 3000 characters of any extracted text), empty
quiz. -/
def degradedResult (env : GenEnv) (contextText : String) : NoteResult :=
  { title := "Catatan " ++ env.today
    content :=
      if contextText ≠ "" then
        "## Gagal Memproses AI\n\nMaaf, terjadi kesalahan saat menghubungi AI. Berikut teks yang terbaca:\n\n" ++
          String.mk (contextText.data.take 3000) ++ "..."
      else
        "Terjadi kesalahan. Coba upload ulang atau gunakan file yang lebih kecil."
    quiz := [] }

/-- Failure of the quiz phase in any of its forms: the call throws, the
response has no text, the text is empty, or the payload is unusable
(both parse stages fail). -/
def quizPhaseFails (env : GenEnv) : Prop :=
  env.quizResp = ApiResult.err ∨ env.quizResp = ApiResult.ok none ∨
    ∃ s, env.quizResp = ApiResult.ok (some s) ∧ (s = "" ∨ parseQuizPayload s = [])

/-- `generateNoteSummary`: configuration result when no key resolves;
otherwise content phase (empty or thrown response degrades), then title /
body extraction, then the quiz phase on the extracted body. -/
def generateNoteSummary (env : GenEnv) (contextText : String) : NoteResult :=
  match env.apiKey with
  | none => { title := configTitle, content := configMsg, quiz := [] }
  | some _ =>
    match env.contentResp with
    | ApiResult.err => degradedResult env contextText
    | ApiResult.ok t =>
      let rawText := t.getD ""
      if rawText = "" then degradedResult env contextText
      else
        let tc := parseNoteContent rawText
        { title := tc.1, content := tc.2, quiz := regenerateQuiz env tc.2 }

/-! ### Lemmas about the scoring loop -/

theorem jsRound_eval (x : ℚ) (n : ℤ) (h1 : (n : ℚ) ≤ x + 1/2) (h2 : x + 1/2 < n + 1) :
    jsRound x = n := by
  unfold jsRound
  exact Int.floor_eq_iff.mpr ⟨h1, h2⟩

theorem scoreLoop_pairs (ans : Nat → Option String) (qs : List QuizQuestion) :
    ∀ i c t, scoreLoop ans i c t qs =
      (c + pairMatches (mcqPairsFrom ans i qs), t + (mcqPairsFrom ans i qs).length) := by
  induction qs with
  | nil => intro i c t; simp [scoreLoop, mcqPairsFrom, pairMatches]
  | cons q qs ih =>
    intro i c t
    by_cases hm : isMCQCounted q = true
    · by_cases ha : ans i = some q.answer
      · simp [scoreLoop, hm, ha, mcqPairsFrom, pairMatches, List.filter_cons, ih,
          Prod.mk.injEq]
        omega
      · simp [scoreLoop, hm, ha, mcqPairsFrom, pairMatches, List.filter_cons, ih,
          Prod.mk.injEq]
        omega
    · simp [scoreLoop, hm, mcqPairsFrom, pairMatches, ih]

theorem calculateScore_pairScore (qs : List QuizQuestion) (ans : Nat → Option String) :
    calculateScore (some qs) ans = pairScore (mcqPairs qs ans) := by
  simp [calculateScore, pairScore, mcqPairs, scoreLoop_pairs]

theorem isMCQCounted_typed (q : QuizQuestion) (h : q.qtype ≠ none) :
    isMCQCounted q = decide (q.qtype = some QKind.mcq) := by
  cases hq : q.qtype with
  | none => exact absurd hq h
  | some k => cases k <;> simp [isMCQCounted, hq]

theorem mcqPairs_length_typed (ans : Nat → Option String) (qs : List QuizQuestion)
    (h : ∀ q ∈ qs, q.qtype ≠ none) :
    ∀ i, (mcqPairsFrom ans i qs).length = countMCQ qs := by
  induction qs with
  | nil => intro i; simp [mcqPairsFrom, countMCQ]
  | cons q qs ih =>
    intro i
    have hq := isMCQCounted_typed q (h q (List.mem_cons_self q qs))
    have ih' := ih (fun x hx => h x (List.mem_cons_of_mem q hx)) (i + 1)
    simp only [countMCQ] at ih' ⊢
    by_cases hk : q.qtype = some QKind.mcq
    · simp only [mcqPairsFrom, hq, hk, List.filter_cons]
      simp [hk, ih']
    · simp only [mcqPairsFrom, hq, hk, List.filter_cons]
      simp [hk, ih']

theorem mcqPairs_matches_typed (ans : Nat → Option String) (qs : List QuizQuestion)
    (h : ∀ q ∈ qs, q.qtype ≠ none) :
    ∀ i, pairMatches (mcqPairsFrom ans i qs) = countCorrect ans i qs := by
  induction qs with
  | nil => intro i; simp [mcqPairsFrom, pairMatches, countCorrect]
  | cons q qs ih =>
    intro i
    have hq := isMCQCounted_typed q (h q (List.mem_cons_self q qs))
    have ih' := ih (fun x hx => h x (List.mem_cons_of_mem q hx)) (i + 1)
    by_cases hk : q.qtype = some QKind.mcq
    · by_cases ha : ans i = some q.answer
      · simp [mcqPairsFrom, pairMatches, countCorrect, List.filter_cons, hq, hk, ha] at ih' ⊢
        omega
      · simp [mcqPairsFrom, pairMatches, countCorrect, List.filter_cons, hq, hk, ha] at ih' ⊢
        exact ih'
    · simp [mcqPairsFrom, pairMatches, countCorrect, hq, hk] at ih' ⊢
      exact ih'

theorem shiftAns_at_base (ans : Nat → Option String) (k i : Nat) (h : i < k) :
    shiftAns k ans i = ans i := by
  simp [shiftAns, h]

theorem shiftAns_high (ans : Nat → Option String) (k : Nat) (qs : List QuizQuestion) :
    ∀ i, k ≤ i → mcqPairsFrom (shiftAns k ans) (i + 1) qs = mcqPairsFrom ans i qs := by
  induction qs with
  | nil => intro i _; simp [mcqPairsFrom]
  | cons q qs ih =>
    intro i hi
    have hv : shiftAns k ans (i + 1) = ans i := by
      have h1 : ¬ (i + 1 < k) := by omega
      have h2 : ¬ (i + 1 = k) := by omega
      simp [shiftAns, h1, h2]
    simp only [mcqPairsFrom, hv, ih (i + 1) (Nat.le_succ_of_le hi)]

theorem mcqPairs_insertAt (ans : Nat → Option String) (e : QuizQuestion)
    (he : isMCQCounted e = false) :
    ∀ (k : Nat) (qs : List QuizQuestion) (i : Nat),
      mcqPairsFrom (shiftAns (i + k) ans) i (insertAt k e qs) = mcqPairsFrom ans i qs := by
  intro k
  induction k with
  | zero =>
    intro qs i
    rw [Nat.add_zero]
    simp only [insertAt, mcqPairsFrom, he, Bool.false_eq_true, if_false, List.nil_append]
    exact shiftAns_high ans i qs i (Nat.le_refl i)
  | succ k ih =>
    intro qs i
    cases qs with
    | nil => simp [insertAt, mcqPairsFrom, he]
    | cons x xs =>
      have hv : shiftAns (i + (k + 1)) ans i = ans i := by
        have h1 : i < i + (k + 1) := by omega
        simp [shiftAns, h1]
      have ih' := ih xs (i + 1)
      have harg : i + 1 + k = i + (k + 1) := by omega
      rw [harg] at ih'
      simp only [insertAt, mcqPairsFrom, hv, ih']

/-! ### Claim C1 -/

/-- C1: for every quiz (with each entry carrying its kind tag, as the
generation pipeline guarantees) and every answers map, `calculateScore`
returns `round(100 * correctCount / multipleChoiceCount)` where both
counts range over the multiple-choice entries only (essay entries are
excluded from the denominator), and returns `0` when there is no
multiple-choice entry. -/
theorem score_spec_mcq_only (qs : List QuizQuestion) (ans : Nat → Option String)
    (h : ∀ q ∈ qs, q.qtype ≠ none) :
    calculateScore (some qs) ans = specScore qs ans := by
  rw [calculateScore_pairScore]
  unfold pairScore specScore
  rw [mcqPairs, mcqPairs_length_typed ans qs h 0, mcqPairs_matches_typed ans qs h 0]
  by_cases h0 : countMCQ qs = 0
  · simp [h0]
  · have harg : ((countCorrect ans 0 qs : ℚ) / (countMCQ qs : ℚ)) * 100 =
        (100 * (countCorrect ans 0 qs : ℚ)) / (countMCQ qs : ℚ) := by ring
    simp [h0, jsRound, harg]

/-- Witness for C1 at a concrete quiz: one answered multiple-choice
question and one essay question; both sides evaluate to 100. -/
theorem score_spec_mcq_only_witness :
    calculateScore
        (some [⟨some QKind.mcq, "2+2?", some ["3", "4"], "4", "e"⟩,
               ⟨some QKind.essay, "jelaskan", some [], "kunci", "e2"⟩])
        (fun i => if i = 0 then some "4" else none) =
      specScore
        [⟨some QKind.mcq, "2+2?", some ["3", "4"], "4", "e"⟩,
         ⟨some QKind.essay, "jelaskan", some [], "kunci", "e2"⟩]
        (fun i => if i = 0 then some "4" else none) ∧
    specScore
        [⟨some QKind.mcq, "2+2?", some ["3", "4"], "4", "e"⟩,
         ⟨some QKind.essay, "jelaskan", some [], "kunci", "e2"⟩]
        (fun i => if i = 0 then some "4" else none) = 100 := by
  refine ⟨score_spec_mcq_only _ _ (by decide), ?_⟩
  have h1 : countMCQ
      [⟨some QKind.mcq, "2+2?", some ["3", "4"], "4", "e"⟩,
       ⟨some QKind.essay, "jelaskan", some [], "kunci", "e2"⟩] = 1 := by decide
  have h2 : countCorrect (fun i => if i = 0 then some "4" else none) 0
      [⟨some QKind.mcq, "2+2?", some ["3", "4"], "4", "e"⟩,
       ⟨some QKind.essay, "jelaskan", some [], "kunci", "e2"⟩] = 1 := by decide
  simp only [specScore, h1, h2]
  norm_num
  apply jsRound_eval <;> norm_num

/-! ### Claim C2 -/

/-- C2: the computed percentage is invariant under adding or removing
essay questions: it is fully determined by the sequence of
multiple-choice entries paired with their submitted answers, and
inserting an essay-tagged question at any position (with the answer map
re-indexed accordingly) never changes the score. -/
theorem score_determined_by_mcq_answers :
    (∀ (qs₁ : List QuizQuestion) (ans₁ : Nat → Option String) qs₂ ans₂,
        mcqPairs qs₁ ans₁ = mcqPairs qs₂ ans₂ →
        calculateScore (some qs₁) ans₁ = calculateScore (some qs₂) ans₂) ∧
    (∀ (e : QuizQuestion) (k : Nat) (qs : List QuizQuestion) (ans : Nat → Option String),
        e.qtype = some QKind.essay →
        calculateScore (some (insertAt k e qs)) (shiftAns k ans) = calculateScore (some qs) ans) := by
  constructor
  · intro qs₁ ans₁ qs₂ ans₂ h
    rw [calculateScore_pairScore, calculateScore_pairScore, h]
  · intro e k qs ans he
    have hm : isMCQCounted e = false := by simp [isMCQCounted, he]
    rw [calculateScore_pairScore, calculateScore_pairScore]
    unfold mcqPairs
    have := mcqPairs_insertAt ans e hm k qs 0
    rw [Nat.zero_add] at this
    rw [this]

/-- Witness for C2: inserting an essay question in front of an answered
multiple-choice question leaves the score at 100. -/
theorem score_determined_by_mcq_answers_witness :
    calculateScore
        (some (insertAt 0 ⟨some QKind.essay, "esai", some [], "kunci", "e2"⟩
          [⟨some QKind.mcq, "2+2?", some ["3", "4"], "4", "e"⟩]))
        (shiftAns 0 (fun i => if i = 0 then some "4" else none)) =
      calculateScore (some [⟨some QKind.mcq, "2+2?", some ["3", "4"], "4", "e"⟩])
        (fun i => if i = 0 then some "4" else none) ∧
    calculateScore (some [⟨some QKind.mcq, "2+2?", some ["3", "4"], "4", "e"⟩])
        (fun i => if i = 0 then some "4" else none) = 100 := by
  refine ⟨score_determined_by_mcq_answers.2 _ 0 _ _ rfl, ?_⟩
  have h : scoreLoop (fun i => if i = 0 then some "4" else none) 0 0 0
      [⟨some QKind.mcq, "2+2?", some ["3", "4"], "4", "e"⟩] = (1, 1) := by decide
  simp only [calculateScore, h]
  norm_num
  apply jsRound_eval <;> norm_num

/-! ### Claim C3 -/

/-- C3 counterexample: with no resolvable API key the orchestrator
returns the fixed configuration title `"Error Konfigurasi"`, which does
not contain the current date (here `"11/10/2026"`), refuting the claim
that the no-key result's title contains the current date. -/
theorem noKey_title_lacks_date :
    (generateNoteSummary ⟨none, ApiResult.ok none, ApiResult.ok none, "11/10/2026"⟩ "").title =
      configTitle ∧
    strContains
      (generateNoteSummary ⟨none, ApiResult.ok none, ApiResult.ok none, "11/10/2026"⟩ "").title
      "11/10/2026" = false := by
  exact ⟨rfl, by decide⟩

/-- C3 (amended): when no API key resolves, the orchestrator does not
throw and returns the fixed configuration-error result: the fixed title
`"Error Konfigurasi"`, the fixed configuration-required message as
content, and the empty quiz (the date-stamped title belongs to the
generation-failure branch, not the no-key branch). -/
theorem noKey_returns_config_result (env : GenEnv) (ctx : String) (h : env.apiKey = none) :
    generateNoteSummary env ctx = ⟨configTitle, configMsg, []⟩ := by
  obtain ⟨key, cr, qr, td⟩ := env
  simp only at h
  subst h
  rfl

/-- Witness for C3's amended theorem at a concrete keyless
environment. -/
theorem noKey_returns_config_result_witness :
    generateNoteSummary ⟨none, ApiResult.err, ApiResult.err, "11/10/2026"⟩ "teks" =
      ⟨configTitle, configMsg, []⟩ :=
  noKey_returns_config_result _ _ rfl

/-! ### Claim C5 -/

/-- C5: when the raw text neither parses leniently as JSON directly nor
parses after fence-stripping, the quiz-payload parsing returns the empty
sequence (and, being a total function, never lets an exception
escape). -/
theorem unparsable_quiz_yields_empty (raw : String)
    (h1 : json5Parse raw = none) (h2 : json5Parse (stripFences raw) = none) :
    parseQuizPayload raw = [] := by
  simp [parseQuizPayload, h1, h2]

/-- Witness for C5 at a concrete malformed text. -/
theorem unparsable_quiz_yields_empty_witness :
    parseQuizPayload "Maaf, saya tidak bisa membuat kuis." = [] :=
  unparsable_quiz_yields_empty _ rfl rfl

/-! ### Claim C6 -/

/-- C6: `parseNoteContent` on `"JUDUL: Fotosintesis\nIsi bab satu..."`
yields title `"Fotosintesis"` and body `"Isi bab satu..."`, with the
marker line stripped from the body; the marker prefix match is
case-insensitive, so the lower-case marker gives the same result. -/
theorem parseNoteContent_marker_example :
    parseNoteContent "JUDUL: Fotosintesis\nIsi bab satu..." = ("Fotosintesis", "Isi bab satu...") ∧
    parseNoteContent "judul: Fotosintesis\nIsi bab satu..." = ("Fotosintesis", "Isi bab satu...") :=
  ⟨rfl, rfl⟩

/-! ### Claim C7 -/

/-- C7 counterexample: on `"Halo dunia\n"` (whose first line does not
start with the title marker) the body is the trimmed text
`"Halo dunia"`, not the entire input unmodified. -/
theorem body_not_unmodified :
    hasJudulMarker "Halo dunia\n" = false ∧
    (parseNoteContent "Halo dunia\n").2 ≠ "Halo dunia\n" := by
  exact ⟨rfl, by decide⟩

/-- C7 (amended): when the text does not start with the title marker,
`parseNoteContent` yields the fixed default placeholder title
`"Ringkasan Materi"` and the entire input as the body after trimming
leading and trailing whitespace (the `.trim()` call modifies inputs with
surrounding whitespace). -/
theorem noMarker_default_title_trimmed_body (raw : String) (h : hasJudulMarker raw = false) :
    parseNoteContent raw = ("Ringkasan Materi", jsTrim raw) := by
  simp [parseNoteContent, h, jsTrim]

/-- Witness for C7's amended theorem at `"Halo dunia\n"`. -/
theorem noMarker_default_title_trimmed_body_witness :
    parseNoteContent "Halo dunia\n" = ("Ringkasan Materi", jsTrim "Halo dunia\n") :=
  noMarker_default_title_trimmed_body _ rfl

/-! ### Claim C8 -/

/-- C8: whenever the content phase produces a non-empty response, the
orchestrator returns a complete `{title, content, quiz}` result even if
the quiz phase fails in any way: the quiz degrades to the empty
sequence while the parsed title and content are returned unchanged, and
(the function being total) no exception propagates. -/
theorem content_preserved_on_quiz_failure (env : GenEnv) (ctx k raw : String)
    (hk : env.apiKey = some k) (hc : env.contentResp = ApiResult.ok (some raw))
    (hne : raw ≠ "") (hq : quizPhaseFails env) :
    generateNoteSummary env ctx =
      ⟨(parseNoteContent raw).1, (parseNoteContent raw).2, []⟩ := by
  obtain ⟨key, cr, qr, td⟩ := env
  simp only at hk hc
  simp only [quizPhaseFails] at hq
  subst hk; subst hc
  have hquiz : ∀ content : String,
      regenerateQuiz ⟨some k, ApiResult.ok (some raw), qr, td⟩ content = [] := by
    intro content
    rcases hq with h | h | ⟨s, hs, h2⟩
    · subst h; rfl
    · subst h; rfl
    · subst hs
      rcases h2 with h2 | h2
      · subst h2; rfl
      · simp [regenerateQuiz, h2]
  simp [generateNoteSummary, Option.getD, hne, hquiz]

/-- Witness for C8: a concrete environment whose quiz call throws still
returns the parsed title and body with an empty quiz. -/
theorem content_preserved_on_quiz_failure_witness :
    generateNoteSummary
        ⟨some "key", ApiResult.ok (some "JUDUL: Topik\nIsi materi."), ApiResult.err, "d"⟩ "" =
      ⟨(parseNoteContent "JUDUL: Topik\nIsi materi.").1,
       (parseNoteContent "JUDUL: Topik\nIsi materi.").2, []⟩ :=
  content_preserved_on_quiz_failure _ _ "key" _ rfl rfl (by decide) (Or.inl rfl)

/-! ### Claim C9 -/

/-- C9: the quiz-generation prompt embeds the source text unchanged when
its length is at most 30000 characters, and otherwise embeds exactly the
first 30000 characters with a truncation ellipsis appended. -/
theorem quiz_prompt_caps_content (s : String) :
    (s.length ≤ 30000 → regenQuizPrompt s = quizPromptPre ++ s ++ quizPromptPost) ∧
    (30000 < s.length →
      regenQuizPrompt s =
        quizPromptPre ++ (String.mk (s.data.take 30000) ++ "...") ++ quizPromptPost) := by
  constructor
  · intro h
    have h' : ¬ s.length > 30000 := by omega
    simp [regenQuizPrompt, safeContent, h']
  · intro h
    simp [regenQuizPrompt, safeContent, h]

/-- Witness for C9 on both sides of the cap: a 3-character text is
embedded unchanged, and a 30001-character text is embedded capped with
an ellipsis. -/
theorem quiz_prompt_caps_content_witness :
    regenQuizPrompt "abc" = quizPromptPre ++ "abc" ++ quizPromptPost ∧
    regenQuizPrompt (String.mk (List.replicate 30001 'a')) =
      quizPromptPre ++
        (String.mk ((List.replicate 30001 'a').take 30000) ++ "...") ++ quizPromptPost := by
  constructor
  · exact (quiz_prompt_caps_content "abc").1 (by decide)
  · have hl : (String.mk (List.replicate 30001 'a')).length = 30001 := by
      rw [show (String.mk (List.replicate 30001 'a')).length
            = (List.replicate 30001 'a').length from rfl, List.length_replicate]
    exact (quiz_prompt_caps_content _).2 (by rw [hl]; omega)

/-! ### Lemmas about fence stripping and the lenient parser -/

theorem hasTriple_tail (c : Char) (l : List Char) (h : hasTriple (c :: l) = false) :
    hasTriple l = false := by
  cases l with
  | nil => rfl
  | cons x l2 =>
    cases l2 with
    | nil => rfl
    | cons y rest =>
      simp only [hasTriple, Bool.or_eq_false_iff] at h
      exact h.2

theorem sfAux_noTriple_tail (l : List Char) :
    (hasTriple l = false →
      sfAux 0 (l ++ ['\x0a', '\x60', '\x60', '\x60']) = l ++ ['\x0a']) ∧
    (hasTriple ('\x60' :: l) = false →
      sfAux 1 (l ++ ['\x0a', '\x60', '\x60', '\x60']) = '\x60' :: (l ++ ['\x0a'])) ∧
    (hasTriple ('\x60' :: '\x60' :: l) = false →
      sfAux 2 (l ++ ['\x0a', '\x60', '\x60', '\x60']) = '\x60' :: '\x60' :: (l ++ ['\x0a'])) := by
  induction l with
  | nil => exact ⟨fun _ => rfl, fun _ => rfl, fun _ => rfl⟩
  | cons c l ih =>
    obtain ⟨ih0, ih1, ih2⟩ := ih
    have hbt : chBtick = '\x60' := rfl
    by_cases hc : c = '\x60'
    · subst hc
      refine ⟨?_, ?_, ?_⟩
      · intro h
        rw [List.cons_append,
          show sfAux 0 ('\x60' :: (l ++ ['\x0a', '\x60', '\x60', '\x60']))
            = sfAux 1 (l ++ ['\x0a', '\x60', '\x60', '\x60']) from rfl, ih1 h]
        simp
      · intro h
        rw [List.cons_append,
          show sfAux 1 ('\x60' :: (l ++ ['\x0a', '\x60', '\x60', '\x60']))
            = sfAux 2 (l ++ ['\x0a', '\x60', '\x60', '\x60']) from rfl, ih2 h]
        simp
      · intro h
        rw [show hasTriple ('\x60' :: '\x60' :: '\x60' :: l) = true from rfl] at h
        exact Bool.noConfusion h
    · have hc' : ¬ (c = chBtick) := by rw [hbt]; exact hc
      have hj0 : sfAux 0 (c :: (l ++ ['\x0a', '\x60', '\x60', '\x60']))
          = c :: sfAux 0 (l ++ ['\x0a', '\x60', '\x60', '\x60']) := by
        simp [sfAux, hc']
      refine ⟨?_, ?_, ?_⟩
      · intro h
        rw [List.cons_append, hj0, ih0 (hasTriple_tail c l h)]
        simp
      · intro h
        have h0 : hasTriple l = false :=
          hasTriple_tail c l (hasTriple_tail '\x60' (c :: l) h)
        rw [List.cons_append,
          show sfAux 1 (c :: (l ++ ['\x0a', '\x60', '\x60', '\x60']))
            = chBtick :: c :: sfAux 0 (l ++ ['\x0a', '\x60', '\x60', '\x60']) from by
              simp [sfAux, hc'],
          ih0 h0, hbt]
        simp
      · intro h
        have h0 : hasTriple l = false :=
          hasTriple_tail c l (hasTriple_tail '\x60' (c :: l)
            (hasTriple_tail '\x60' ('\x60' :: c :: l) h))
        rw [List.cons_append,
          show sfAux 2 (c :: (l ++ ['\x0a', '\x60', '\x60', '\x60']))
            = chBtick :: chBtick :: c :: sfAux 0 (l ++ ['\x0a', '\x60', '\x60', '\x60']) from by
              simp [sfAux, hc'],
          ih0 h0, hbt]
        simp

theorem sfAux_noTriple_id (l : List Char) :
    (hasTriple l = false → sfAux 0 l = l) ∧
    (hasTriple ('\x60' :: l) = false → sfAux 1 l = '\x60' :: l) ∧
    (hasTriple ('\x60' :: '\x60' :: l) = false → sfAux 2 l = '\x60' :: '\x60' :: l) := by
  induction l with
  | nil => exact ⟨fun _ => rfl, fun _ => rfl, fun _ => rfl⟩
  | cons c l ih =>
    obtain ⟨ih0, ih1, ih2⟩ := ih
    have hbt : chBtick = '\x60' := rfl
    by_cases hc : c = '\x60'
    · subst hc
      refine ⟨?_, ?_, ?_⟩
      · intro h
        rw [show sfAux 0 ('\x60' :: l) = sfAux 1 l from rfl, ih1 h]
      · intro h
        rw [show sfAux 1 ('\x60' :: l) = sfAux 2 l from rfl, ih2 h]
      · intro h
        rw [show hasTriple ('\x60' :: '\x60' :: '\x60' :: l) = true from rfl] at h
        exact Bool.noConfusion h
    · have hc' : ¬ (c = chBtick) := by rw [hbt]; exact hc
      refine ⟨?_, ?_, ?_⟩
      · intro h
        have : sfAux 0 (c :: l) = c :: sfAux 0 l := by simp [sfAux, hc']
        rw [this, ih0 (hasTriple_tail c l h)]
      · intro h
        have h0 : hasTriple l = false :=
          hasTriple_tail c l (hasTriple_tail '\x60' (c :: l) h)
        have : sfAux 1 (c :: l) = chBtick :: c :: sfAux 0 l := by simp [sfAux, hc']
        rw [this, ih0 h0, hbt]
      · intro h
        have h0 : hasTriple l = false :=
          hasTriple_tail c l (hasTriple_tail '\x60' (c :: l)
            (hasTriple_tail '\x60' ('\x60' :: c :: l) h))
        have : sfAux 2 (c :: l) = chBtick :: chBtick :: c :: sfAux 0 l := by simp [sfAux, hc']
        rw [this, ih0 h0, hbt]

theorem dropTrailingWs_append_ws (l : List Char) (c : Char) (hc : isWsCh c = true) :
    dropTrailingWs (l ++ [c]) = dropTrailingWs l := by
  simp [dropTrailingWs, List.reverse_append, List.dropWhile_cons, hc]

theorem dropTrailingWs_append_nonws (l : List Char) (c : Char) (hc : isWsCh c = false) :
    dropTrailingWs (l ++ [c]) = l ++ [c] := by
  simp [dropTrailingWs, List.reverse_append, List.dropWhile_cons, hc]

theorem dropWhile_append_of_ne_nil (p : Char → Bool) (l1 l2 : List Char)
    (h : l1.dropWhile p ≠ []) :
    (l1 ++ l2).dropWhile p = l1.dropWhile p ++ l2 := by
  induction l1 with
  | nil => simp at h
  | cons x xs ih =>
    by_cases hp : p x = true
    · simp only [List.dropWhile_cons, hp, if_pos] at h ⊢
      simp only [List.cons_append, List.dropWhile_cons, hp, if_pos]
      exact ih h
    · simp only [List.dropWhile_cons, hp] at h ⊢
      simp [List.dropWhile_cons, hp]

theorem dropTrailingWs_cons (c : Char) (l : List Char) (h : dropTrailingWs l ≠ []) :
    dropTrailingWs (c :: l) = c :: dropTrailingWs l := by
  have h' : l.reverse.dropWhile isWsCh ≠ [] := by
    intro hx
    exact h (by simp [dropTrailingWs, hx])
  show ((c :: l).reverse.dropWhile isWsCh).reverse = c :: dropTrailingWs l
  rw [List.reverse_cons, dropWhile_append_of_ne_nil _ _ _ h']
  simp [dropTrailingWs]

theorem pValue_btick (fuel : Nat) (cs : List Char) : pValue fuel ('\x60' :: cs) = none := by
  cases fuel with
  | zero => rfl
  | succ n => rfl

theorem skipWsAux_nonws (c : Char) (cs : List Char) (h1 : isWsCh c = false) (h2 : ¬ c = '/') :
    skipWsAux 0 (c :: cs) = some (c :: cs) := by
  rw [skipWsAux.eq_def]
  split <;> simp_all

theorem skipWsAux_ws (c : Char) (cs : List Char) (h1 : isWsCh c = true) :
    skipWsAux 0 (c :: cs) = skipWsAux 0 cs := by
  rw [skipWsAux.eq_def]
  split <;> (try simp_all) <;> exact absurd h1 (by decide)

theorem jsonDoc_btick (rest : List Char) : jsonDoc ('\x60' :: rest) = none := by
  unfold jsonDoc
  rw [skipWsAux_nonws _ _ (by decide) (by decide)]
  simp [pValue_btick]

theorem jsonDoc_nil : jsonDoc [] = none := rfl

theorem jsonDoc_ws_cons (c : Char) (l : List Char) (hc : isWsCh c = true) :
    jsonDoc (c :: l) = jsonDoc l := by
  unfold jsonDoc
  rw [skipWsAux_ws c l hc]

theorem parseQuizPayload_eq (raw : String) :
    parseQuizPayload raw =
      match (json5Parse raw).bind toQuizOpt with
      | some quiz => quiz
      | none =>
        match (json5Parse (stripFences raw)).bind toQuizOpt with
        | some quiz => quiz
        | none => [] := rfl

/-! ### Claim C4 -/

/-- C4 counterexample: the fence-strip is a global replace, so a fenced
payload whose question text itself contains a triple backtick parses to
a different question set than the unfenced JSON parsed directly (the
inner fence is deleted: `"```c kode"` becomes `"c kode"`). -/
theorem fenced_quiz_parse_mismatch :
    (json5Parse cexFencedBody).isSome = true ∧
    parseQuizPayload (fenceWrapJson cexFencedBody) ≠ parseQuizPayload cexFencedBody := by
  refine ⟨rfl, ?_⟩
  intro h
  have hq := congrArg qTextOfFirst h
  rw [show qTextOfFirst (parseQuizPayload (fenceWrapJson cexFencedBody)) = some "c kode" from rfl,
    show qTextOfFirst (parseQuizPayload cexFencedBody) = some "\x60\x60\x60c kode" from rfl] at hq
  exact absurd hq (by decide)

/-- C4 (amended): for rawText that is valid JSON, the quiz-payload
parsing yields the question set of parsing that JSON directly; and for
valid JSON wrapped in leading/trailing markdown code-fence markers
(triple backticks, with or without the `json` language tag) the same
holds provided the JSON text contains no triple-backtick sequence of its
own (the counterexample shows the global fence-strip corrupts embedded
fences). -/
theorem fenced_quiz_parse_agrees (J : String) (j : Json)
    (hp : json5Parse J = some j) (hb : hasTriple J.data = false) :
    parseQuizPayload (fenceWrapJson J) = parseQuizPayload J ∧
    parseQuizPayload (fenceWrapPlain J) = parseQuizPayload J ∧
    (∀ qz, toQuizOpt j = some qz → parseQuizPayload J = qz) := by
  have hdJ : (fenceWrapJson J).data
      = '\x60' :: '\x60' :: '\x60' :: 'j' :: 's' :: 'o' :: 'n' :: '\x0a' ::
        (J.data ++ ['\x0a', '\x60', '\x60', '\x60']) := by
    simp only [fenceWrapJson, String.data_append, List.append_assoc]
    rfl
  have hdP : (fenceWrapPlain J).data
      = '\x60' :: '\x60' :: '\x60' :: '\x0a' :: (J.data ++ ['\x0a', '\x60', '\x60', '\x60']) := by
    simp only [fenceWrapPlain, String.data_append, List.append_assoc]
    rfl
  have hne : dropTrailingWs J.data ≠ [] := by
    intro h0
    rw [show json5Parse J = jsonDoc (dropTrailingWs J.data) from rfl, h0, jsonDoc_nil] at hp
    exact Option.noConfusion hp
  -- stage 1 on the fenced texts throws
  have hs1J : json5Parse (fenceWrapJson J) = none := by
    show jsonDoc (dropTrailingWs (fenceWrapJson J).data) = none
    rw [hdJ,
      show '\x60' :: '\x60' :: '\x60' :: 'j' :: 's' :: 'o' :: 'n' :: '\x0a' ::
          (J.data ++ ['\x0a', '\x60', '\x60', '\x60'])
        = ('\x60' :: '\x60' :: '\x60' :: 'j' :: 's' :: 'o' :: 'n' :: '\x0a' ::
          (J.data ++ ['\x0a', '\x60', '\x60'])) ++ ['\x60'] from by simp,
      dropTrailingWs_append_nonws _ _ (by decide)]
    exact jsonDoc_btick _
  have hs1P : json5Parse (fenceWrapPlain J) = none := by
    show jsonDoc (dropTrailingWs (fenceWrapPlain J).data) = none
    rw [hdP,
      show '\x60' :: '\x60' :: '\x60' :: '\x0a' :: (J.data ++ ['\x0a', '\x60', '\x60', '\x60'])
        = ('\x60' :: '\x60' :: '\x60' :: '\x0a' ::
          (J.data ++ ['\x0a', '\x60', '\x60'])) ++ ['\x60'] from by simp,
      dropTrailingWs_append_nonws _ _ (by decide)]
    exact jsonDoc_btick _
  -- stage 2 on the fenced texts recovers the direct parse
  have hs2J : json5Parse (stripFences (fenceWrapJson J)) = json5Parse J := by
    show jsonDoc (dropTrailingWs (String.mk (stripFencesL (fenceWrapJson J).data)).data)
        = json5Parse J
    rw [hdJ,
      show stripFencesL ('\x60' :: '\x60' :: '\x60' :: 'j' :: 's' :: 'o' :: 'n' :: '\x0a' ::
          (J.data ++ ['\x0a', '\x60', '\x60', '\x60']))
        = sfAux 0 (J.data ++ ['\x0a', '\x60', '\x60', '\x60']) from rfl,
      (sfAux_noTriple_tail J.data).1 hb]
    show jsonDoc (dropTrailingWs (J.data ++ ['\x0a'])) = json5Parse J
    rw [dropTrailingWs_append_ws _ _ (by decide)]
    rfl
  have hs2P : json5Parse (stripFences (fenceWrapPlain J)) = json5Parse J := by
    show jsonDoc (dropTrailingWs (String.mk (stripFencesL (fenceWrapPlain J).data)).data)
        = json5Parse J
    rw [hdP,
      show stripFencesL ('\x60' :: '\x60' :: '\x60' :: '\x0a' ::
          (J.data ++ ['\x0a', '\x60', '\x60', '\x60']))
        = '\x0a' :: sfAux 0 (J.data ++ ['\x0a', '\x60', '\x60', '\x60']) from rfl,
      (sfAux_noTriple_tail J.data).1 hb]
    show jsonDoc (dropTrailingWs ('\x0a' :: (J.data ++ ['\x0a']))) = json5Parse J
    rw [dropTrailingWs_cons _ _ (by rw [dropTrailingWs_append_ws _ _ (by decide)]; exact hne),
      dropTrailingWs_append_ws _ _ (by decide),
      jsonDoc_ws_cons _ _ (by decide)]
    rfl
  -- the direct parse's fence-strip is the identity
  have hid : stripFences J = J := by
    show String.mk (sfAux 0 J.data) = J
    rw [(sfAux_noTriple_id J.data).1 hb]
  constructor
  · rw [parseQuizPayload_eq (fenceWrapJson J), hs1J, hs2J,
      parseQuizPayload_eq J, hid, hp]
    cases hqz : toQuizOpt j <;> simp [hqz]
  constructor
  · rw [parseQuizPayload_eq (fenceWrapPlain J), hs1P, hs2P,
      parseQuizPayload_eq J, hid, hp]
    cases hqz : toQuizOpt j <;> simp [hqz]
  · intro qz hqz
    rw [parseQuizPayload_eq J, hp]
    simp [hqz]

/-- Witness for C4's amended theorem on a concrete backtick-free quiz
payload, fenced with and without the language tag. -/
theorem fenced_quiz_parse_agrees_witness :
    parseQuizPayload (fenceWrapJson sampleQuizJson) = parseQuizPayload sampleQuizJson ∧
    parseQuizPayload (fenceWrapPlain sampleQuizJson) = parseQuizPayload sampleQuizJson := by
  have h := fenced_quiz_parse_agrees sampleQuizJson
    ((json5Parse sampleQuizJson).getD Json.null) rfl rfl
  exact ⟨h.1, h.2.1⟩

/-! ### Claim C10 -/

theorem lookupKey_insertKey_self (fs : List (String × Json)) (k : String) (v : Json) :
    lookupKey (insertKey fs k v) k = some v := by
  induction fs with
  | nil => simp [insertKey, lookupKey]
  | cons p rest ih =>
    by_cases hk : p.1 = k
    · simp [insertKey, lookupKey, hk]
    · simp [insertKey, lookupKey, hk, ih]

theorem fieldArrOrEmpty_spec (j : Json) (k : String) (ms : List Json)
    (h : fieldArrOrEmpty j k = some ms) : ms = specArrayOf j k := by
  unfold fieldArrOrEmpty at h
  unfold specArrayOf
  cases hp : getProp j k with
  | none => rw [hp] at h; simp at h; simp [h]
  | some v =>
    rw [hp] at h
    cases v with
    | null => simp [jsTruthy] at h; simp [h]
    | bool b =>
      cases b with
      | false => simp [jsTruthy] at h; simp [h]
      | true => simp [jsTruthy] at h
    | num q =>
      by_cases hq : q = 0
      · simp [jsTruthy, hq] at h; simp [h]
      · simp [jsTruthy, hq] at h
    | str s =>
      by_cases hs : s = ""
      · simp [jsTruthy, hs] at h; simp [h]
      · simp [jsTruthy, hs] at h
    | arr xs => simp [jsTruthy] at h; simp [h]
    | obj fs => simp [jsTruthy] at h

theorem toQuizOpt_nonnull (j : Json) (hj : j ≠ Json.null) :
    toQuizOpt j =
      match fieldArrOrEmpty j "mcq_questions", fieldArrOrEmpty j "essay_questions" with
      | some ms, some es => some (ms.map tagMcq ++ es.map tagEssay)
      | _, _ => none := by
  cases j with
  | null => exact absurd rfl hj
  | bool b => rfl
  | num q => rfl
  | str s => rfl
  | arr xs => rfl
  | obj fs => rfl

/-- C10: every payload accepted by the quiz-payload mapping yields
exactly the multiple-choice entries first, in source order, each tagged
`mcq`, followed by the essay entries in source order, each tagged
`essay` with `options` defaulted to the empty sequence; a missing array
contributes nothing. -/
theorem quiz_payload_order_spec (j : Json) (q : List Json) (h : toQuizOpt j = some q) :
    q = specQuizOf j ∧
    ∀ e ∈ (specEssayArray j).map tagEssay, getProp e "options" = some (Json.arr []) := by
  have hj : j ≠ Json.null := by
    intro hx
    subst hx
    simp [toQuizOpt] at h
  rw [toQuizOpt_nonnull j hj] at h
  constructor
  · cases hm : fieldArrOrEmpty j "mcq_questions" with
    | none => rw [hm] at h; simp at h
    | some ms =>
      cases he : fieldArrOrEmpty j "essay_questions" with
      | none => rw [hm, he] at h; simp at h
      | some es =>
        rw [hm, he] at h
        simp only [Option.some.injEq] at h
        subst h
        rw [fieldArrOrEmpty_spec j _ ms hm, fieldArrOrEmpty_spec j _ es he]
        rfl
  · intro e he
    obtain ⟨x, _, hx⟩ := List.mem_map.mp he
    subst hx
    show lookupKey (insertKey (insertKey (jsSpreadFields x) "type" (Json.str "essay"))
      "options" (Json.arr [])) "options" = some (Json.arr [])
    exact lookupKey_insertKey_self _ _ _

/-- Witness for C10 at a concrete parsed payload with one
multiple-choice and one essay entry. -/
theorem quiz_payload_order_spec_witness :
    [Json.obj [("question", Json.str "q1"), ("type", Json.str "mcq")],
     Json.obj [("question", Json.str "q2"), ("type", Json.str "essay"),
       ("options", Json.arr [])]] =
      specQuizOf (Json.obj
        [("mcq_questions", Json.arr [Json.obj [("question", Json.str "q1")]]),
         ("essay_questions", Json.arr [Json.obj [("question", Json.str "q2")]])]) ∧
    ∀ e ∈ (specEssayArray (Json.obj
        [("mcq_questions", Json.arr [Json.obj [("question", Json.str "q1")]]),
         ("essay_questions", Json.arr [Json.obj [("question", Json.str "q2")]])])).map tagEssay,
      getProp e "options" = some (Json.arr []) :=
  quiz_payload_order_spec _ _ rfl

end PintarAI
